import Mathlib

/-
Verification of the servicenow-dev-mcp server against its specification.

The development shallowly embeds the two source modules the claims are about:
  * src/tools/sdk-commands.ts  (external-CLI wrappers, `runSdk`)
  * the code-generator module  (`idKey`, `generateColumnCode`, the table,
    flow and workspace emitters)

JavaScript strings are modelled as Lean `String` (lists of Unicode code
points; the source only manipulates whole characters, and the single place
where UTF-16 surrogate pairs could matter — the per-character regex in
`idKey` — is unaffected by the modelling, since every surrogate code unit
and every astral code point alike is outside `[A-Za-z0-9_]` and is replaced
by an underscore, which changes neither idempotence nor any emitted key).
JavaScript truthiness on strings ("" is falsy) and on numbers (0 is falsy)
is modelled explicitly.  Template literals become explicit `++` chains in
exactly the order the source concatenates; `Array.prototype.join` becomes
`String.intercalate`; sequential `code += ...` accumulation becomes either
the same chain of `++` or a `List.foldl` for source-level `for` loops.
-/

/-! ## JavaScript-semantics helpers -/

/-- JS `a || b` for strings: `b` when `a` is the empty string (falsy). -/
def jsOr (a b : String) : String :=
  if a = "" then b else a

/-- JS `a || b` where `a : string | undefined` (an omitted optional field). -/
def jsOrOpt (a : Option String) (b : String) : String :=
  jsOr (a.getD "") b

/-- JS truthiness of a `string | undefined` value. -/
def truthyStr (a : Option String) : Bool :=
  match a with
  | none => false
  | some s => s != ""

/-- JS truthiness of a `number | undefined` value (0 is falsy). -/
def truthyNum (a : Option Int) : Bool :=
  match a with
  | none => false
  | some n => n != 0

/-- JS `String.prototype.trim`: remove leading and trailing whitespace
(of the whitespace characters JS trims, the ones expressible here are
space, tab, carriage return and newline — the same set
`Char.isWhitespace` decides). -/
def jsTrim (s : String) : String :=
  ⟨((s.data.dropWhile Char.isWhitespace).reverse.dropWhile Char.isWhitespace).reverse⟩

/-- First-match lookup in an association list, modelling JS property
access `obj[k]` on an object given by its (unique-keyed) entry list. -/
def lookupStr (m : List (String × String)) (k : String) : Option String :=
  match m with
  | [] => none
  | (k2, v) :: rest => if k2 = k then some v else lookupStr rest k

/-! ## Identifier normalizer (`idKey` in the generator module)

Source:
  function idKey(name) \x7b
    return name.replace(/[^a-zA-Z0-9_]/g, "_").toLowerCase();
  \x7d
The regex character class `[^a-zA-Z0-9_]` is expressed below through code
points (A–Z = 65–90, a–z = 97–122, 0–9 = 48–57, _ = 95), and
`toLowerCase` — which, on the replacement's output, only ever sees those
ASCII characters — adds 32 to an upper-case code point. -/

/-- Membership in the regex character class `[a-zA-Z0-9_]`. -/
def isIdChar (c : Char) : Bool :=
  (65 ≤ c.toNat && c.toNat ≤ 90) || (97 ≤ c.toNat && c.toNat ≤ 122) ||
    (48 ≤ c.toNat && c.toNat ≤ 57) || (c.toNat == 95)

/-- One step of `.replace(/[^a-zA-Z0-9_]/g, "_")`. -/
def replaceNonId (c : Char) : Char :=
  if isIdChar c then c else '_'

/-- ASCII lower-casing of one character, the only effect `toLowerCase`
has on the output of the replacement above. -/
def toLowerChar (c : Char) : Char :=
  if 65 ≤ c.toNat ∧ c.toNat ≤ 90 then Char.ofNat (c.toNat + 32) else c

/-- `idKey`: replace every character outside `[A-Za-z0-9_]` with `_`,
then lower-case the result. -/
def idKey (s : String) : String :=
  ⟨(s.data.map replaceNonId).map toLowerChar⟩

/-! ## External command invoker (`runSdk` in sdk-commands.ts) -/

/-- Outcome of `execAsync`: either resolution with captured stdout and
stderr, or rejection with an error object carrying the captured stderr
(absent for a spawn failure that produced none) and a message. -/
inductive ExecOutcome where
  | ok (stdout stderr : String)
  | err (stderr : Option String) (message : String)
deriving DecidableEq, Repr

/-- The uniform result envelope: one text block plus the error flag
(`isError` absent in the JS object is modelled as `false`). -/
structure CommandResult where
  text : String
  isError : Bool
deriving DecidableEq, Repr

/-- `runSdk`, given the outcome of the one subprocess it spawns.

Source: on resolution returns
  `(stdout || stderr || "Command completed successfully.").trim()`,
no error flag; on rejection returns
  `` `Error: ${(error as any).stderr || error.message}` ``
with `isError: true`. -/
def runSdk (outcome : ExecOutcome) : CommandResult :=
  match outcome with
  | .ok stdout stderr =>
      { text := jsTrim (jsOr stdout (jsOr stderr ("Command completed successfully.")))
        isError := false }
  | .err stderr message =>
      { text := "Error: " ++ jsOr (stderr.getD "") message
        isError := true }

/-- An execution oracle: what the subprocess would do for a given command
line and working directory.  Handlers that spawn pass their command to it;
the credential-add handler never consults it. -/
def ExecOracle : Type :=
  String → Option String → ExecOutcome

/-- `DEFAULT_AUTH = process.env.SNC_DEFAULT_AUTH_ALIAS || "dev252193"`,
as a function of the recognized environment variable. -/
def defaultAuthAlias (env : Option String) : String :=
  jsOrOpt env ("dev252193")

/-- Authentication types accepted by `snc_auth_add`. -/
inductive AuthType where
  | basic
  | oauth
deriving DecidableEq, Repr

def authTypeStr (t : AuthType) : String :=
  match t with
  | .basic => "basic"
  | .oauth => "oauth"

/-- The command line constructed by the `snc_auth_add` handler. -/
def authAddCmd (inst : String) (aliasArg : Option String) (ty : AuthType) : String :=
  "npx now-sdk auth --add " ++ inst ++ " --type " ++ authTypeStr ty ++
    " --alias " ++ jsOrOpt aliasArg inst

/-- The `snc_auth_add` handler.  It takes the execution oracle like every
other CLI-wrapper handler but never applies it: it only assembles the
instructional text around the constructed command line.  The `type`
parameter carries the zod default `basic` when omitted. -/
def authAddHandler (inst : String) (aliasArg : Option String)
    (ty : Option AuthType) (_exec : ExecOracle) : CommandResult :=
  let t := ty.getD .basic
  let a := jsOrOpt aliasArg inst
  let cmd := authAddCmd inst aliasArg t
  { text := "This command requires interactive input (username/password). Run it in your terminal:\n\n"
      ++ cmd ++ "\n\nThen set as default:\nnpx now-sdk auth --use " ++ a
    isError := false }

/-- Project templates accepted by `snc_init`. -/
inductive InitTemplate where
  | base
  | configuration
  | tsBasic
  | tsReact
  | tsVue
  | jsBasic
  | jsReact
  | partialTsReact
  | partialTsVue
  | partialJsReact
deriving DecidableEq, Repr

def templateStr (t : InitTemplate) : String :=
  match t with
  | .base => "base"
  | .configuration => "configuration"
  | .tsBasic => "typescript.basic"
  | .tsReact => "typescript.react"
  | .tsVue => "typescript.vue"
  | .jsBasic => "javascript.basic"
  | .jsReact => "javascript.react"
  | .partialTsReact => "partial.typescript.react"
  | .partialTsVue => "partial.typescript.vue"
  | .partialJsReact => "partial.javascript.react"

/-- Command line built by the `snc_init` handler:
`parts.join(" ")` with `--packageName` pushed only when truthy and
`--auth ${auth || DEFAULT_AUTH}` always pushed last. -/
def sncInitCmd (env : Option String) (appName scopeName : String)
    (template : InitTemplate) (packageName auth : Option String) : String :=
  String.intercalate (" ")
    (["npx now-sdk init",
      "--appName \"" ++ appName ++ "\"",
      "--scopeName \"" ++ scopeName ++ "\"",
      "--template " ++ templateStr template]
     ++ (if truthyStr packageName then
          ["--packageName \"" ++ packageName.getD "" ++ "\""] else [])
     ++ ["--auth " ++ jsOrOpt auth (defaultAuthAlias env)])

/-- Command line built by the `snc_install` handler:
`--auth` is pushed only when the caller supplied a truthy alias. -/
def sncInstallCmd (auth : Option String) : String :=
  String.intercalate (" ")
    (["npx now-sdk install"]
     ++ (if truthyStr auth then ["--auth " ++ auth.getD ""] else []))

/-- Command line built by the `snc_dependencies` handler. -/
def sncDependenciesCmd (auth : Option String) : String :=
  String.intercalate (" ")
    (["npx now-sdk dependencies"]
     ++ (if truthyStr auth then ["--auth " ++ auth.getD ""] else []))

/-- Command line built by the `snc_transform` handler. -/
def sncTransformCmd (fromArg auth : Option String) : String :=
  String.intercalate (" ")
    (["npx now-sdk transform"]
     ++ (if truthyStr fromArg then
          ["--from \"" ++ fromArg.getD "" ++ "\""] else [])
     ++ (if truthyStr auth then ["--auth " ++ auth.getD ""] else []))

/-! ## Code generators

Convention for embedding the emitters: a handler that accumulates its
output by `let code = c₁; code += c₂; ...; code += cₙ` is embedded as the
list `[c₁, c₂, ..., cₙ]` of appended chunks, in source order, with the
emitted text recovered as `String.join` of that list (sequential string
appension and joining the list of appended pieces produce the same
string); a source-level `for` loop over a collection contributes the
chunks of its iterations, in order, via `List.flatMap`. -/

/-- The eight column types of the shared zod `ColumnSpec` schema. -/
inductive ColType where
  | string
  | integer
  | boolean
  | date
  | datetime
  | decimal
  | reference
  | choice
deriving DecidableEq, Repr

/-- `columnTypeImport`: the map from column type to imported constructor
name.  The source's `|| "StringColumn"` fallback is unreachable because
the zod enum admits exactly these eight keys. -/
def columnTypeImport (t : ColType) : String :=
  match t with
  | .string => "StringColumn"
  | .integer => "IntegerColumn"
  | .boolean => "BooleanColumn"
  | .date => "DateColumn"
  | .datetime => "DateTimeColumn"
  | .decimal => "DecimalColumn"
  | .reference => "ReferenceColumn"
  | .choice => "ChoiceColumn"

/-- A validated `ColumnSpec`.  `choices` is the entry list of the supplied
JS object, in its (insertion = iteration) order. -/
structure ColumnSpec where
  name : String
  type : ColType
  label : String
  mandatory : Option Bool
  maxLength : Option Int
  referenceTable : Option String
  choices : Option (List (String × String))
  defaultValue : Option String
deriving DecidableEq, Repr

/-- One line of the choice map emitted by `generateColumnCode`:
`` `${indent}            ${k}: { label: '${v}', sequence: ${i + 1} }` ``
for the entry `(k, v)` at 0-based iteration position `i`. -/
def choiceEntryLine (indent : String) (i : Nat) (kv : String × String) : String :=
  indent ++ "            " ++ kv.1 ++ ": \x7b label: \x27" ++ kv.2 ++
    "\x27, sequence: " ++ toString (i + 1) ++ " \x7d"

/-- `Object.entries(col.choices).map(([k, v], i) => ...)`. -/
def choiceEntries (indent : String) (cs : List (String × String)) : List String :=
  cs.enum.map (fun p => choiceEntryLine indent p.1 p.2)

/-- The `choices:` property pushed for a choice column. -/
def choicesProp (indent : String) (cs : List (String × String)) : String :=
  "choices: \x7b\n" ++ String.intercalate (",\n") (choiceEntries indent cs) ++
    ",\n" ++ indent ++ "        \x7d"

/-- The `props` array assembled by `generateColumnCode`, in push order:
`label` always; `mandatory: true` when `col.mandatory` is truthy;
`maxLength` when truthy (so not for 0); `default` whenever
`col.defaultValue !== undefined`; `referenceTable` for a reference column
with a truthy table name; the choice map for a choice column whose
`choices` object is present. -/
def genColumnProps (col : ColumnSpec) (indent : String) : List String :=
  ["label: \x27" ++ col.label ++ "\x27"]
  ++ (if col.mandatory = some true then ["mandatory: true"] else [])
  ++ (match col.maxLength with
      | some n => if n = 0 then [] else ["maxLength: " ++ toString n]
      | none => [])
  ++ (match col.defaultValue with
      | some v => ["default: \x27" ++ v ++ "\x27"]
      | none => [])
  ++ (match col.type, col.referenceTable with
      | .reference, some rt =>
          if rt = "" then [] else ["referenceTable: \x27" ++ rt ++ "\x27"]
      | _, _ => [])
  ++ (match col.type, col.choices with
      | .choice, some cs => [choicesProp indent cs]
      | _, _ => [])

/-- `generateColumnCode(col, indent)`. -/
def generateColumnCode (col : ColumnSpec) (indent : String) : String :=
  let propsStr := String.intercalate (",\n" ++ indent ++ "            ")
    (genColumnProps col indent)
  indent ++ "        " ++ col.name ++ ": " ++ columnTypeImport col.type ++
    "(\x7b\n" ++ indent ++ "            " ++ propsStr ++ ",\n" ++ indent ++ "        \x7d)"

/-- A validated request to `snc_generate_table`. -/
structure TableRequest where
  tableName : String
  label : String
  columns : List ColumnSpec
  displayColumn : Option String
deriving DecidableEq, Repr

/-- The `imports` set of the table handler: a JS `Set` seeded with
`"Table"` and extended with each column's constructor name, modelled as
an insertion-ordered duplicate-free list. -/
def importSet (columns : List ColumnSpec) : List String :=
  columns.foldl
    (fun acc col =>
      if columnTypeImport col.type ∈ acc then acc
      else acc ++ [columnTypeImport col.type])
    ["Table"]

/-- Insert into a `≤`-sorted list of strings, keeping it sorted. -/
def insertSorted (s : String) (l : List String) : List String :=
  match l with
  | [] => [s]
  | x :: xs => if s ≤ x then s :: x :: xs else x :: insertSorted s xs

/-- Sort a list of strings by `≤` (insertion sort). -/
def sortStrings (l : List String) : List String :=
  l.foldr insertSorted []

/-- `Array.from(imports).sort().join(", ")`: the default JS sort orders
strings lexicographically by UTF-16 code units, which on these ASCII
constructor names is the lexicographic order on code points, i.e.
`String` `≤`. -/
def importList (columns : List ColumnSpec) : String :=
  String.intercalate (", ") (sortStrings (importSet columns))

/-- `tableName.replace(/\./g, "_")`: the table handler's export variable
name replaces only dots (no lower-casing, no other characters). -/
def dotToUnderscore (s : String) : String :=
  ⟨s.data.map (fun c => if c = '.' then '_' else c)⟩

/-- The chunks appended by the `snc_generate_table` handler, in order. -/
def tableChunks (r : TableRequest) : List String :=
  let colCode := String.intercalate (",\n")
    (r.columns.map (fun c => generateColumnCode c ""))
  ["import \x7b " ++ importList r.columns ++ " \x7d from \x27@servicenow/sdk/core\x27\n\n",
   "export const " ++ dotToUnderscore r.tableName ++ " = Table(\x7b\n",
   "    name: \x27" ++ r.tableName ++ "\x27,\n",
   "    label: \x27" ++ r.label ++ "\x27,\n",
   "    schema: \x7b\n" ++ colCode ++ ",\n    \x7d,\n"]
  ++ (if truthyStr r.displayColumn then
       ["    display: \x27" ++ r.displayColumn.getD "" ++ "\x27,\n"] else [])
  ++ ["\x7d)\n"]

/-- The full document emitted by `snc_generate_table`. -/
def tableCode (r : TableRequest) : String :=
  String.join (tableChunks r)

/-- Record trigger types of `snc_generate_flow`. -/
inductive FlowTrigger where
  | created
  | updated
  | createdOrUpdated
deriving DecidableEq, Repr

def triggerStr (t : FlowTrigger) : String :=
  match t with
  | .created => "created"
  | .updated => "updated"
  | .createdOrUpdated => "createdOrUpdated"

/-- Flow action types. -/
inductive FlowActionType where
  | log
  | updateRecord
  | sendEmail
  | lookUpRecord
deriving DecidableEq, Repr

def actionTypeStr (t : FlowActionType) : String :=
  match t with
  | .log => "log"
  | .updateRecord => "updateRecord"
  | .sendEmail => "sendEmail"
  | .lookUpRecord => "lookUpRecord"

/-- One validated flow action: a type and its `config` object, given by
its entry list in iteration order. -/
structure ActionSpec where
  type : FlowActionType
  config : List (String × String)
deriving DecidableEq, Repr

/-- A validated request to `snc_generate_flow`. -/
structure FlowRequest where
  name : String
  description : String
  triggerType : FlowTrigger
  table : String
  condition : Option String
  actions : List ActionSpec
deriving DecidableEq, Repr

/-- The chunks appended for one action of the flow handler's `for` loop
(`const actId = idKey(`...`)` then a `switch` on the action type). -/
def actionChunks (flowId tbl : String) (act : ActionSpec) : List String :=
  let actId := idKey (flowId ++ "_" ++ actionTypeStr act.type)
  match act.type with
  | .log =>
      ["        wfa.action(\n",
       "            action.core.log,\n",
       "            \x7b $id: Now.ID[\x27" ++ actId ++ "\x27] \x7d,\n",
       "            \x7b\n",
       "                log_level: \x27" ++ jsOrOpt (lookupStr act.config ("level")) ("info") ++ "\x27,\n",
       "                log_message: \x27" ++ jsOrOpt (lookupStr act.config ("message")) ("Flow executed") ++ "\x27,\n",
       "            \x7d\n",
       "        )\n\n"]
  | .updateRecord =>
      ["        wfa.action(\n",
       "            action.core.updateRecord,\n",
       "            \x7b $id: Now.ID[\x27" ++ actId ++ "\x27] \x7d,\n",
       "            \x7b\n",
       "                table_name: \x27" ++ jsOrOpt (lookupStr act.config ("table")) tbl ++ "\x27,\n",
       "                // @ts-ignore - sys_id is a system column\n",
       "                record: wfa.dataPill(params.trigger.current.sys_id, \x27reference\x27),\n",
       "                values: \x7b\n"]
      ++ ((act.config.filter (fun kv => kv.1 != "table")).map
           (fun kv => "                    " ++ kv.1 ++ ": \x27" ++ kv.2 ++ "\x27,\n"))
      ++ ["                \x7d,\n",
          "            \x7d\n",
          "        )\n\n"]
  | .sendEmail =>
      ["        wfa.action(\n",
       "            action.core.sendEmail,\n",
       "            \x7b $id: Now.ID[\x27" ++ actId ++ "\x27] \x7d,\n",
       "            \x7b\n",
       "                table_name: \x27" ++ tbl ++ "\x27,\n",
       "                watermark_email: true,\n",
       "                ah_subject: \x27" ++ jsOrOpt (lookupStr act.config ("subject")) ("Notification") ++ "\x27,\n",
       "                ah_body: \x27" ++ jsOrOpt (lookupStr act.config ("body")) ("") ++ "\x27,\n",
       "                // @ts-ignore - sys_id is a system column\n",
       "                record: wfa.dataPill(params.trigger.current.sys_id, \x27reference\x27),\n",
       "                ah_to: \x27" ++ jsOrOpt (lookupStr act.config ("to")) ("") ++ "\x27,\n",
       "            \x7d\n",
       "        )\n\n"]
  | .lookUpRecord =>
      ["        const " ++ actId ++ "_result = wfa.action(\n",
       "            action.core.lookUpRecord,\n",
       "            \x7b $id: Now.ID[\x27" ++ actId ++ "\x27] \x7d,\n",
       "            \x7b\n",
       "                table: \x27" ++ jsOrOpt (lookupStr act.config ("table")) ("sys_user") ++ "\x27,\n",
       "                conditions: \x27" ++ jsOrOpt (lookupStr act.config ("conditions")) ("") ++ "\x27,\n",
       "                sort_type: \x27sort_asc\x27,\n",
       "                if_multiple_records_are_found_action: \x27use_first_record\x27,\n",
       "            \x7d\n",
       "        )\n\n"]

/-- The text of one action block. -/
def actionBlock (flowId tbl : String) (act : ActionSpec) : String :=
  String.join (actionChunks flowId tbl act)

/-- The chunks the flow handler appends before its action loop. -/
def flowHeaderChunks (r : FlowRequest) : List String :=
  let flowId := idKey r.name
  ["import \x7b action, Flow, wfa, trigger \x7d from \x27@servicenow/sdk/automation\x27\n\n",
   "export const " ++ flowId ++ " = Flow(\n",
   "    \x7b\n",
   "        $id: Now.ID[\x27" ++ flowId ++ "\x27],\n",
   "        name: \x27" ++ r.name ++ "\x27,\n",
   "        description: \x27" ++ r.description ++ "\x27,\n",
   "    \x7d,\n",
   "    wfa.trigger(\n",
   "        trigger.record." ++ triggerStr r.triggerType ++ ",\n",
   "        \x7b $id: Now.ID[\x27" ++ flowId ++ "_trigger\x27] \x7d,\n",
   "        \x7b\n",
   "            table: \x27" ++ r.table ++ "\x27,\n"]
  ++ (if truthyStr r.condition then
       ["            condition: \x27" ++ r.condition.getD "" ++ "\x27,\n"] else [])
  ++ ["            run_flow_in: \x27background\x27,\n",
      "            run_on_extended: \x27false\x27,\n",
      "            run_when_setting: \x27both\x27,\n",
      "            run_when_user_setting: \x27any\x27,\n",
      "            run_when_user_list: [],\n",
      "        \x7d\n",
      "    ),\n",
      "    (params) => \x7b\n"]

/-- The chunks the flow handler appends after its action loop. -/
def flowFooterChunks : List String :=
  ["    \x7d\n", ")\n"]

/-- All chunks of the `snc_generate_flow` handler, in order. -/
def flowChunks (r : FlowRequest) : List String :=
  flowHeaderChunks r
  ++ r.actions.flatMap (actionChunks (idKey r.name) r.table)
  ++ flowFooterChunks

/-- The full document emitted by `snc_generate_flow`. -/
def flowCode (r : FlowRequest) : String :=
  String.join (flowChunks r)

/-- One table entry of a workspace request (`primary` carries its zod
default `false` when omitted). -/
structure WsTable where
  tableName : String
  primary : Bool
  listColumns : List String
deriving DecidableEq, Repr

/-- A validated request to `snc_generate_workspace`. -/
structure WorkspaceRequest where
  title : String
  urlPath : String
  description : String
  tables : List WsTable
deriving DecidableEq, Repr

/-- One element of the workspace `List` block's `columns` array:
`` `        { element: '${c}', position: ${i} }` `` at 0-based index `i`. -/
def wsListEntryLine (i : Nat) (c : String) : String :=
  "        \x7b element: \x27" ++ c ++ "\x27, position: " ++ toString i ++ " \x7d"

/-- `tbl.listColumns.map((c, i) => ...)`. -/
def wsListEntries (cols : List String) : List String :=
  cols.enum.map (fun p => wsListEntryLine p.1 p.2)

/-- The chunks of the workspace handler's `sys_aw_master_config` block. -/
def wsMasterChunks (r : WorkspaceRequest) : List String :=
  let wsId := idKey r.title
  ["import \x7b Record, List \x7d from \x27@servicenow/sdk/core\x27\n\n",
   "Record(\x7b\n",
   "    table: \x27sys_aw_master_config\x27,\n",
   "    $id: Now.ID[\x27" ++ wsId ++ "\x27],\n",
   "    data: \x7b\n",
   "        title: \x27" ++ r.title ++ "\x27,\n",
   "        description: \x27" ++ r.description ++ "\x27,\n",
   "        url_path: \x27" ++ r.urlPath ++ "\x27,\n",
   "        active: true,\n",
   "    \x7d,\n",
   "\x7d)\n\n"]

/-- The chunks appended for one table entry of the workspace handler's
`for` loop: one `sys_aw_table` record, one `sys_ui_view` record, one
`List` block. -/
def wsTableChunks (wsId : String) (t : WsTable) : List String :=
  let tblId := idKey ("ws_" ++ t.tableName)
  let viewId := idKey (t.tableName ++ "_view")
  let listId := idKey (t.tableName ++ "_list")
  ["Record(\x7b\n",
   "    table: \x27sys_aw_table\x27,\n",
   "    $id: Now.ID[\x27" ++ tblId ++ "\x27],\n",
   "    data: \x7b\n",
   "        master_config: Now.ID[\x27" ++ wsId ++ "\x27],\n",
   "        table: \x27" ++ t.tableName ++ "\x27,\n",
   "        active: true,\n",
   "        primary: " ++ toString t.primary ++ ",\n",
   "    \x7d,\n",
   "\x7d)\n\n",
   "const " ++ viewId ++ " = Record(\x7b\n",
   "    table: \x27sys_ui_view\x27,\n",
   "    $id: Now.ID[\x27" ++ viewId ++ "\x27],\n",
   "    data: \x7b\n",
   "        name: \x27" ++ viewId ++ "\x27,\n",
   "        title: \x27" ++ t.tableName ++ " Workspace View\x27,\n",
   "    \x7d,\n",
   "\x7d)\n\n",
   "List(\x7b\n",
   "    $id: Now.ID[\x27" ++ listId ++ "\x27],\n",
   "    table: \x27" ++ t.tableName ++ "\x27,\n",
   "    view: " ++ viewId ++ ",\n",
   "    columns: [\n" ++ String.intercalate (",\n") (wsListEntries t.listColumns) ++ ",\n    ],\n",
   "\x7d)\n\n"]

/-- The text of the three blocks emitted for one workspace table entry. -/
def wsTableBlock (wsId : String) (t : WsTable) : String :=
  String.join (wsTableChunks wsId t)

/-- All chunks of the `snc_generate_workspace` handler, in order. -/
def workspaceChunks (r : WorkspaceRequest) : List String :=
  wsMasterChunks r ++ r.tables.flatMap (wsTableChunks (idKey r.title))

/-- The full document emitted by `snc_generate_workspace`. -/
def workspaceCode (r : WorkspaceRequest) : String :=
  String.join (workspaceChunks r)

/-- Ambient sources of nondeterminism a handler closure could consult
(wall-clock time, a random stream).  The generator handlers receive the
same ambient environment as any other code but never consult it; the
embedding makes that explicit by threading a `World` value into the
emitter entry points, which — like the source — use none of it. -/
structure World where
  timeMs : Nat
  randomSeed : Nat

/-- The `snc_generate_table` handler's response envelope. -/
def tableEmit (r : TableRequest) (_w : World) : CommandResult :=
  { text := tableCode r, isError := false }

/-- The `snc_generate_flow` handler's response envelope. -/
def flowEmit (r : FlowRequest) (_w : World) : CommandResult :=
  { text := flowCode r, isError := false }

/-- The `snc_generate_workspace` handler's response envelope. -/
def workspaceEmit (r : WorkspaceRequest) (_w : World) : CommandResult :=
  { text := workspaceCode r, isError := false }

/-! ## String-search helpers used only to state and check properties -/

/-- `pat` occurs (contiguously) somewhere in `s`. -/
def containsStr (s pat : String) : Bool :=
  (List.range (s.data.length + 1)).any (fun i => pat.data.isPrefixOf (s.data.drop i))

/-- The character of `s` at 0-based position `i`, if any. -/
def strAt (s : String) (i : Nat) : Option Char :=
  s.data[i]?

/-- `when` values of `snc_generate_business_rule`. -/
inductive BrWhen where
  | before
  | after
  | async
  | display
deriving DecidableEq, Repr

def brWhenStr (w : BrWhen) : String :=
  match w with
  | .before => "before"
  | .after => "after"
  | .async => "async"
  | .display => "display"

/-- Operations of `snc_generate_business_rule`. -/
inductive BrAction where
  | insert
  | update
  | delete
  | query
deriving DecidableEq, Repr

def brActionStr (a : BrAction) : String :=
  match a with
  | .insert => "insert"
  | .update => "update"
  | .delete => "delete"
  | .query => "query"

/-- A validated request to `snc_generate_business_rule`. -/
structure BusinessRuleRequest where
  name : String
  table : String
  when : BrWhen
  actions : List BrAction
  condition : Option String
  scriptBody : String
  scriptFunctionName : Option String
deriving DecidableEq, Repr

/-- The chunks appended by the `snc_generate_business_rule` handler, in
order (`ruleId = idKey(name)`, `fnName = scriptFunctionName ||
ruleId + "Script"`, `actionStr = actions.map(a => ...).join(", ")`). -/
def businessRuleChunks (r : BusinessRuleRequest) : List String :=
  let ruleId := idKey r.name
  let fnName := jsOrOpt r.scriptFunctionName (ruleId ++ "Script")
  let actionStr := String.intercalate (", ")
    (r.actions.map (fun a => "\x27" ++ brActionStr a ++ "\x27"))
  ["import \x7b BusinessRule \x7d from \x27@servicenow/sdk/core\x27\n",
   "import \x7b GlideRecord, gs \x7d from \x27@servicenow/glide\x27\n\n",
   "function " ++ fnName ++ "(current: GlideRecord): void \x7b\n",
   "    " ++ r.scriptBody ++ "\n",
   "\x7d\n\n",
   "BusinessRule(\x7b\n",
   "    $id: Now.ID[\x27" ++ ruleId ++ "\x27],\n",
   "    name: \x27" ++ r.name ++ "\x27,\n",
   "    table: \x27" ++ r.table ++ "\x27,\n",
   "    when: \x27" ++ brWhenStr r.when ++ "\x27,\n",
   "    action: [" ++ actionStr ++ "],\n",
   "    active: true,\n"]
  ++ (if truthyStr r.condition then
       ["    filter_condition: \x27" ++ r.condition.getD "" ++ "\x27,\n"] else [])
  ++ ["    script: " ++ fnName ++ ",\n",
      "    abort_action: false,\n",
      "\x7d)\n"]

/-- The full document emitted by `snc_generate_business_rule`. -/
def businessRuleCode (r : BusinessRuleRequest) : String :=
  String.join (businessRuleChunks r)

/-- CRUD operations of `snc_generate_acl`. -/
inductive AclOp where
  | create
  | read
  | write
  | delete
deriving DecidableEq, Repr

def aclOpStr (o : AclOp) : String :=
  match o with
  | .create => "create"
  | .read => "read"
  | .write => "write"
  | .delete => "delete"

/-- A validated request to `snc_generate_acl` (`operations` carries its
zod default `[create, read, write, delete]` when omitted). -/
structure AclRequest where
  table : String
  operations : List AclOp
  roleName : Option String
  roleImportPath : Option String
deriving DecidableEq, Repr

/-- The chunks appended for one operation of the ACL handler's `for`
loop (`aclId = idKey(table + "_" + op)`). -/
def aclOpChunks (tbl : String) (roleName : Option String) (op : AclOp) : List String :=
  let aclId := idKey (tbl ++ "_" ++ aclOpStr op)
  ["Acl(\x7b\n",
   "    $id: Now.ID[\x27" ++ aclId ++ "\x27],\n",
   "    active: true,\n",
   "    type: \x27record\x27,\n",
   "    operation: \x27" ++ aclOpStr op ++ "\x27,\n"]
  ++ (if truthyStr roleName then
       ["    roles: [" ++ roleName.getD "" ++ "],\n"] else [])
  ++ ["    table: \x27" ++ tbl ++ "\x27,\n",
      "\x7d)\n\n"]

/-- All chunks of the `snc_generate_acl` handler, in order. -/
def aclChunks (r : AclRequest) : List String :=
  ["import \x7b Acl \x7d from \x27@servicenow/sdk/core\x27\n"]
  ++ (if truthyStr r.roleName && truthyStr r.roleImportPath then
       ["import \x7b " ++ r.roleName.getD "" ++ " \x7d from \x27" ++
         r.roleImportPath.getD "" ++ "\x27\n"] else [])
  ++ ["\n"]
  ++ r.operations.flatMap (aclOpChunks r.table r.roleName)

/-- The full document emitted by `snc_generate_acl`. -/
def aclCode (r : AclRequest) : String :=
  String.join (aclChunks r)

/-- A validated request to `snc_generate_role`. -/
structure RoleRequest where
  name : String
  description : String
  exportName : Option String
deriving DecidableEq, Repr

/-- `name.split(".").pop()`: the segment after the last dot — the whole
string when there is no dot, the empty string when the name ends in a
dot. -/
def splitDotLast (s : String) : String :=
  ⟨(s.data.reverse.takeWhile (fun c => c != '.')).reverse⟩

/-- The role handler's export variable name:
`exportName || idKey(name.split(".").pop() || name)`. -/
def roleVarName (name : String) (exportName : Option String) : String :=
  jsOrOpt exportName (idKey (jsOr (splitDotLast name) name))

/-- The chunks appended by the `snc_generate_role` handler, in order. -/
def roleChunks (r : RoleRequest) : List String :=
  ["import \x7b Role \x7d from \x27@servicenow/sdk/core\x27\n\n",
   "export const " ++ roleVarName r.name r.exportName ++ " = Role(\x7b\n",
   "    name: \x27" ++ r.name ++ "\x27,\n",
   "    description: \x27" ++ r.description ++ "\x27,\n",
   "\x7d)\n"]

/-- The full document emitted by `snc_generate_role`. -/
def roleCode (r : RoleRequest) : String :=
  String.join (roleChunks r)

/-- Navigation link types of `snc_generate_app_menu`. -/
inductive MenuLinkType where
  | LIST
  | NEW
deriving DecidableEq, Repr

def linkTypeStr (t : MenuLinkType) : String :=
  match t with
  | .LIST => "LIST"
  | .NEW => "NEW"

/-- One navigation module of a menu request (`linkType` carries its zod
default `LIST` when omitted; `order` is a JS number). -/
structure MenuModule where
  title : String
  table : String
  linkType : MenuLinkType
  order : Int
deriving DecidableEq, Repr

/-- A validated request to `snc_generate_app_menu`. -/
structure AppMenuRequest where
  title : String
  description : String
  modules : List MenuModule
  roleName : Option String
  roleImportPath : Option String
deriving DecidableEq, Repr

/-- The chunks appended for one module of the menu handler's `for` loop
(`modId = idKey(menuId + "_" + mod.title)`). -/
def menuModuleChunks (menuId : String) (m : MenuModule) : List String :=
  let modId := idKey (menuId ++ "_" ++ m.title)
  ["Record(\x7b\n",
   "    table: \x27sys_app_module\x27,\n",
   "    $id: Now.ID[\x27" ++ modId ++ "\x27],\n",
   "    data: \x7b\n",
   "        title: \x27" ++ m.title ++ "\x27,\n",
   "        active: true,\n",
   "        application: " ++ menuId ++ ".$id,\n",
   "        link_type: \x27" ++ linkTypeStr m.linkType ++ "\x27,\n",
   "        name: \x27" ++ m.table ++ "\x27,\n",
   "        order: " ++ toString m.order ++ ",\n",
   "        override_menu_roles: false,\n",
   "        require_confirmation: false,\n",
   "        uncancelable: false,\n",
   "    \x7d,\n",
   "\x7d)\n\n"]

/-- All chunks of the `snc_generate_app_menu` handler, in order
(`menuId = idKey(title)`). -/
def menuChunks (r : AppMenuRequest) : List String :=
  let menuId := idKey r.title
  ["import \x7b ApplicationMenu, Record \x7d from \x27@servicenow/sdk/core\x27\n"]
  ++ (if truthyStr r.roleName && truthyStr r.roleImportPath then
       ["import \x7b " ++ r.roleName.getD "" ++ " \x7d from \x27" ++
         r.roleImportPath.getD "" ++ "\x27\n"] else [])
  ++ ["\n",
      "export const " ++ menuId ++ " = ApplicationMenu(\x7b\n",
      "    $id: Now.ID[\x27" ++ menuId ++ "\x27],\n",
      "    title: \x27" ++ r.title ++ "\x27,\n",
      "    description: \x27" ++ r.description ++ "\x27,\n",
      "    active: true,\n"]
  ++ (if truthyStr r.roleName then
       ["    roles: [" ++ r.roleName.getD "" ++ "],\n"] else [])
  ++ ["\x7d)\n\n"]
  ++ r.modules.flatMap (menuModuleChunks menuId)

/-- The full document emitted by `snc_generate_app_menu`. -/
def menuCode (r : AppMenuRequest) : String :=
  String.join (menuChunks r)

/-! ## Infrastructure lemmas -/

theorem strJoin_nil : String.join [] = "" :=
  rfl

theorem strJoin_cons (s : String) (l : List String) :
    String.join (s :: l) = s ++ String.join l := by
  apply String.ext
  simp [String.join_eq, String.data_append]

theorem strJoin_append (l₁ l₂ : List String) :
    String.join (l₁ ++ l₂) = String.join l₁ ++ String.join l₂ := by
  apply String.ext
  simp [String.join_eq, String.data_append]

theorem strJoin_flatMap {α : Type} (f : α → List String) (l : List α) :
    String.join (l.flatMap f) = String.join (l.map (fun x => String.join (f x))) := by
  induction l with
  | nil => rfl
  | cons x xs ih =>
      simp only [List.flatMap_cons, List.map_cons, strJoin_cons, strJoin_append, ih]

theorem containsStr_self (s : String) : containsStr s s = true := by
  unfold containsStr
  refine List.any_eq_true.mpr ⟨0, List.mem_range.mpr (by omega), ?_⟩
  rw [List.drop_zero]
  exact List.isPrefixOf_iff_prefix.mpr (List.prefix_refl _)

theorem containsStr_append_right (x y p : String) (h : containsStr x p = true) :
    containsStr (x ++ y) p = true := by
  unfold containsStr at h ⊢
  obtain ⟨i, hi, hpre⟩ := List.any_eq_true.mp h
  refine List.any_eq_true.mpr ⟨i, List.mem_range.mpr ?_, ?_⟩
  · rw [String.data_append, List.length_append]
    exact lt_of_lt_of_le (List.mem_range.mp hi) (by omega)
  · rw [String.data_append, List.drop_append_of_le_length
      (by have := List.mem_range.mp hi; omega)]
    exact List.isPrefixOf_iff_prefix.mpr
      ((List.isPrefixOf_iff_prefix.mp hpre).trans (List.prefix_append _ _))

theorem containsStr_append_left (x y p : String) (h : containsStr y p = true) :
    containsStr (x ++ y) p = true := by
  unfold containsStr at h ⊢
  obtain ⟨i, hi, hpre⟩ := List.any_eq_true.mp h
  refine List.any_eq_true.mpr ⟨x.data.length + i, List.mem_range.mpr ?_, ?_⟩
  · rw [String.data_append, List.length_append]
    have := List.mem_range.mp hi
    omega
  · rw [String.data_append, List.drop_append]
    exact hpre

theorem containsStr_join_of_mem_contains (l : List String) (c p : String)
    (hm : c ∈ l) (hc : containsStr c p = true) :
    containsStr (String.join l) p = true := by
  induction l with
  | nil => cases hm
  | cons x xs ih =>
      rw [strJoin_cons]
      rcases List.mem_cons.mp hm with h | h
      · exact containsStr_append_right _ _ _ (h ▸ hc)
      · exact containsStr_append_left _ _ _ (ih h)

theorem containsStr_join_of_mem (l : List String) (c : String) (hm : c ∈ l) :
    containsStr (String.join l) c = true :=
  containsStr_join_of_mem_contains l c c hm (containsStr_self c)

theorem intercalate_go_spec (sep : String) :
    ∀ (as : List String) (acc : String),
      String.intercalate.go acc sep as = acc ++ String.join (as.map (fun a => sep ++ a)) := by
  intro as
  induction as with
  | nil => intro acc; simp [String.intercalate.go, strJoin_nil, String.append_empty]
  | cons a rest ih =>
      intro acc
      simp only [String.intercalate.go, List.map_cons, strJoin_cons, ih]
      simp [String.append_assoc]

theorem intercalate_cons (sep a : String) (as : List String) :
    String.intercalate sep (a :: as) = a ++ String.join (as.map (fun x => sep ++ x)) := by
  simp only [String.intercalate, intercalate_go_spec]

theorem containsStr_intercalate_of_mem (sep x : String) (l : List String) (h : x ∈ l) :
    containsStr (String.intercalate sep l) x = true := by
  induction l with
  | nil => cases h
  | cons a as ih =>
      rw [intercalate_cons]
      rcases List.mem_cons.mp h with hx | hx
      · subst hx
        exact containsStr_append_right _ _ _ (containsStr_self x)
      · refine containsStr_append_left _ _ _ ?_
        refine containsStr_join_of_mem_contains _ (sep ++ x) x
          (List.mem_map.mpr ⟨x, hx, rfl⟩) ?_
        exact containsStr_append_left _ _ _ (containsStr_self x)

theorem strAt_append (a b : String) (i : Nat) (h : i < a.data.length) :
    strAt (a ++ b) i = strAt a i := by
  unfold strAt
  rw [String.data_append]
  exact List.getElem?_append_left h

theorem ne_of_strAt (i : Nat) (a b : String) (h : strAt a i ≠ strAt b i) : a ≠ b :=
  fun he => h (by rw [he])

theorem append_inj_mid (l r : String) {x y : String}
    (h : l ++ x ++ r = l ++ y ++ r) : x = y := by
  apply String.ext
  have hd := congrArg String.data h
  simp only [String.data_append] at hd
  exact List.append_cancel_left (List.append_cancel_right hd)

theorem truthyStr_iff (o : Option String) :
    truthyStr o = true ↔ ∃ x, o = some x ∧ x ≠ "" := by
  cases o <;> simp [truthyStr]

theorem charOfNat_toNat_lower (m : Nat) (h1 : 97 ≤ m) (h2 : m ≤ 122) :
    (Char.ofNat m).toNat = m := by
  interval_cases m <;> rfl

theorem isIdChar_iff (c : Char) :
    isIdChar c = true ↔
      (65 ≤ c.toNat ∧ c.toNat ≤ 90) ∨ (97 ≤ c.toNat ∧ c.toNat ≤ 122) ∨
        (48 ≤ c.toNat ∧ c.toNat ≤ 57) ∨ c.toNat = 95 := by
  simp [isIdChar]
  tauto

theorem replaceNonId_of_id {c : Char} (h : isIdChar c = true) : replaceNonId c = c := by
  unfold replaceNonId
  rw [if_pos h]

theorem toLowerChar_toNat_of_upper {c : Char} (h : 65 ≤ c.toNat ∧ c.toNat ≤ 90) :
    (toLowerChar c).toNat = c.toNat + 32 := by
  unfold toLowerChar
  rw [if_pos h]
  exact charOfNat_toNat_lower _ (by omega) (by omega)

theorem toLowerChar_of_not_upper {c : Char} (h : ¬(65 ≤ c.toNat ∧ c.toNat ≤ 90)) :
    toLowerChar c = c := by
  unfold toLowerChar
  rw [if_neg h]

theorem idKeyChar_idem (c : Char) :
    toLowerChar (replaceNonId (toLowerChar (replaceNonId c))) =
      toLowerChar (replaceNonId c) := by
  by_cases hid : isIdChar c = true
  · rw [replaceNonId_of_id hid]
    by_cases hup : 65 ≤ c.toNat ∧ c.toNat ≤ 90
    · have hd := toLowerChar_toNat_of_upper hup
      have hidd : isIdChar (toLowerChar c) = true := by
        rw [isIdChar_iff]
        right; left; omega
      rw [replaceNonId_of_id hidd]
      exact toLowerChar_of_not_upper (by omega)
    · rw [toLowerChar_of_not_upper hup, replaceNonId_of_id hid,
        toLowerChar_of_not_upper hup]
  · have h1 : replaceNonId c = '_' := by
      unfold replaceNonId
      rw [if_neg hid]
    rw [h1]
    have h2 : toLowerChar '_' = '_' := by decide
    have h3 : replaceNonId '_' = '_' := by decide
    rw [h2, h3, h2]

/-! ## Claim C2 — the identifier normalizer -/

/-- Claim C2: `idKey` is the function that replaces every character
outside `[A-Za-z0-9_]` with an underscore and then lower-cases the
result; it is total and deterministic (a Lean function), and it is
idempotent: `idKey (idKey s) = idKey s` for every string, checked also
on the spec's concrete cases `"Asset Tracker"` and `"Asset-Tracker"`,
which both normalize to `"asset_tracker"`. -/
theorem idKey_idempotent :
    (∀ s : String, idKey (idKey s) = idKey s)
    ∧ idKey ("Asset Tracker") = "asset_tracker"
    ∧ idKey ("Asset-Tracker") = "asset_tracker"
    ∧ idKey ("asset_tracker") = "asset_tracker" := by
  refine ⟨?_, by decide, by decide, by decide⟩
  intro s
  unfold idKey
  apply String.ext
  show (((s.data.map replaceNonId).map toLowerChar).map replaceNonId).map toLowerChar
      = (s.data.map replaceNonId).map toLowerChar
  simp only [List.map_map]
  exact List.map_congr_left (fun c _ => idKeyChar_idem c)

/-! ## Claim C1 — the external command invoker -/

/-- Claim C1 (counterexample to the claim as stated): `runSdk` does not
return the captured error text verbatim — it prefixes it with
`"Error: "` — and on success it does not return the standard output
verbatim — it trims it, and substitutes a fixed message when both
streams are empty.  Concretely, a failure whose captured error text is
`"boom"` yields the text `"Error: boom"`, not `"boom"`, and a success
whose stdout is `"  out  "` yields `"out"`. -/
theorem runSdk_verbatim_counterexample :
    (runSdk (.err none ("boom"))).text = "Error: boom"
    ∧ (runSdk (.err none ("boom"))).text ≠ "boom"
    ∧ (runSdk (.err none ("boom"))).isError = true
    ∧ (runSdk (.ok ("  out  ") (""))).text = "out"
    ∧ (runSdk (.ok ("  out  ") (""))).text ≠ "  out  "
    ∧ (runSdk (.ok ("") (""))).text = "Command completed successfully." := by
  refine ⟨by decide, by decide, by decide, ?_, ?_, by decide⟩
  · decide
  · decide

/-- Claim C1 (amended): on subprocess success `runSdk` returns the
trimmed standard output (or the trimmed standard error when stdout is
empty, or the fixed message `"Command completed successfully."` when
both are empty) with the error flag unset; on failure it returns the
captured error text — the error's `stderr` when truthy, otherwise its
`message` — prefixed with `"Error: "`, with the error flag set. -/
theorem runSdk_result_spec :
    (∀ so se : String, so ≠ "" → runSdk (.ok so se) = ⟨jsTrim so, false⟩)
    ∧ (∀ se : String, se ≠ "" → runSdk (.ok "" se) = ⟨jsTrim se, false⟩)
    ∧ runSdk (.ok "" "") = ⟨"Command completed successfully.", false⟩
    ∧ (∀ st msg : String, st ≠ "" → runSdk (.err (some st) msg) = ⟨"Error: " ++ st, true⟩)
    ∧ (∀ msg : String, runSdk (.err none msg) = ⟨"Error: " ++ msg, true⟩)
    ∧ (∀ msg : String, runSdk (.err (some "") msg) = ⟨"Error: " ++ msg, true⟩) := by
  refine ⟨?_, ?_, by decide, ?_, ?_, ?_⟩
  · intro so se h
    simp [runSdk, jsOr, h]
  · intro se h
    simp [runSdk, jsOr, h]
  · intro st msg h
    simp [runSdk, jsOr, h]
  · intro msg
    simp [runSdk, jsOr]
  · intro msg
    simp [runSdk, jsOr]

/-- Witness for C1's amended theorem at concrete inputs. -/
theorem runSdk_result_spec_witness :
    runSdk (.ok ("done") ("note")) = ⟨jsTrim ("done"), false⟩
    ∧ runSdk (.err (some ("fail")) ("msg")) = ⟨"Error: fail", true⟩ :=
  ⟨runSdk_result_spec.1 ("done") ("note") (by decide),
   runSdk_result_spec.2.2.2.1 ("fail") ("msg") (by decide)⟩

/-! ## Claim C3 — choice sequence numbers -/

theorem choiceEntries_zip_aux (indent : String) :
    ∀ (cs : List (String × String)) (k : Nat),
      (List.enumFrom k cs).map (fun p => choiceEntryLine indent p.1 p.2)
        = List.zipWith
            (fun kv n => indent ++ "            " ++ kv.1 ++ ": \x7b label: \x27" ++
              kv.2 ++ "\x27, sequence: " ++ toString n ++ " \x7d")
            cs (List.range' (k + 1) cs.length) := by
  intro cs
  induction cs with
  | nil => intro k; rfl
  | cons kv rest ih =>
      intro k
      simp only [List.enumFrom_cons, List.map_cons, List.length_cons,
        List.range'_succ, List.zipWith_cons_cons]
      rw [ih (k + 1)]
      rfl

set_option maxRecDepth 16384 in
/-- Claim C3: for every choice column, the emitted `choices` block pairs
the supplied entries, in their iteration order, with the sequence
numbers `1..n` exactly (`List.range' 1 n`); on the concrete scenario
column `status` with choices `open ↦ Open, closed ↦ Closed`, the
emitted block contains `open: { label: 'Open', sequence: 1 }` and
`closed: { label: 'Closed', sequence: 2 }`. -/
theorem choice_sequence_numbers :
    (∀ (indent : String) (cs : List (String × String)),
      choiceEntries indent cs
        = List.zipWith
            (fun kv n => indent ++ "            " ++ kv.1 ++ ": \x7b label: \x27" ++
              kv.2 ++ "\x27, sequence: " ++ toString n ++ " \x7d")
            cs (List.range' 1 cs.length))
    ∧ containsStr
        (generateColumnCode ⟨"status", .choice, "Status", none, none, none,
          some [("open", "Open"), ("closed", "Closed")], none⟩ (""))
        ("open: \x7b label: \x27Open\x27, sequence: 1 \x7d") = true
    ∧ containsStr
        (generateColumnCode ⟨"status", .choice, "Status", none, none, none,
          some [("open", "Open"), ("closed", "Closed")], none⟩ (""))
        ("closed: \x7b label: \x27Closed\x27, sequence: 2 \x7d") = true := by
  refine ⟨?_, by decide, by decide⟩
  intro indent cs
  unfold choiceEntries List.enum
  exact choiceEntries_zip_aux indent cs 0

/-! ## Claim C8 — the credential-add tool -/

/-- Claim C8: the `snc_auth_add` handler never spawns a subprocess — its
result is independent of the execution oracle — and for every valid
input it returns a non-error text block containing the constructed
command line `npx now-sdk auth --add <instance> --type <type> --alias
<alias>` (alias defaulting to the instance name). -/
theorem auth_add_pure :
    ∀ (inst : String) (aliasArg : Option String) (ty : Option AuthType)
      (ex1 ex2 : ExecOracle),
      authAddHandler inst aliasArg ty ex1 = authAddHandler inst aliasArg ty ex2
      ∧ (authAddHandler inst aliasArg ty ex1).isError = false
      ∧ containsStr (authAddHandler inst aliasArg ty ex1).text
          (authAddCmd inst aliasArg (ty.getD .basic)) = true := by
  intro inst aliasArg ty ex1 ex2
  refine ⟨rfl, rfl, ?_⟩
  show containsStr
      ("This command requires interactive input (username/password). Run it in your terminal:\n\n"
        ++ authAddCmd inst aliasArg (ty.getD .basic)
        ++ "\n\nThen set as default:\nnpx now-sdk auth --use " ++ jsOrOpt aliasArg inst)
      (authAddCmd inst aliasArg (ty.getD .basic)) = true
  exact containsStr_append_right _ _ _ (containsStr_append_right _ _ _
    (containsStr_append_left _ _ _ (containsStr_self _)))

/-! ## Claim C9 — determinism of the emitters -/

/-- Claim C9: the emitters are deterministic — the emitted envelope does
not depend on the ambient world (time, randomness), so two runs on the
same request are byte-identical; stated for the table, flow and
workspace emitters. -/
theorem emitters_deterministic :
    (∀ (r : TableRequest) (w1 w2 : World), tableEmit r w1 = tableEmit r w2)
    ∧ (∀ (r : FlowRequest) (w1 w2 : World), flowEmit r w1 = flowEmit r w2)
    ∧ (∀ (r : WorkspaceRequest) (w1 w2 : World), workspaceEmit r w1 = workspaceEmit r w2) :=
  ⟨fun _ _ _ => rfl, fun _ _ _ => rfl, fun _ _ _ => rfl⟩

/-! ## Claim C5 — default auth alias -/

/-- Claim C5: of the four CLI wrappers taking an optional auth alias,
only `snc_init` substitutes the environment-selected default
(`SNC_DEFAULT_AUTH_ALIAS`, literal `dev252193` when absent) into its
command line; `snc_install`, `snc_dependencies` and `snc_transform`
build their command lines with no `--auth` flag at all when the alias
is omitted — contradicting their own declared parameter documentation
(`defaults to ${DEFAULT_AUTH}`). -/
theorem install_auth_omitted :
    sncInstallCmd none = "npx now-sdk install"
    ∧ containsStr ("npx now-sdk install") ("--auth") = false
    ∧ containsStr ("npx now-sdk install") ("dev252193") = false
    ∧ sncDependenciesCmd none = "npx now-sdk dependencies"
    ∧ sncTransformCmd none none = "npx now-sdk transform"
    ∧ (∀ (env : Option String) (a s : String) (t : InitTemplate) (p : Option String),
        containsStr (sncInitCmd env a s t p none)
          ("--auth " ++ defaultAuthAlias env) = true) := by
  refine ⟨by decide, by decide, by decide, by decide, by decide, ?_⟩
  intro env a s t p
  unfold sncInitCmd
  apply containsStr_intercalate_of_mem
  simp [jsOrOpt, jsOr]

/-! ## Claim C4 — key derivation -/

/-- Claim C4 (counterexample to the claim as stated): the table
emitter's exported variable name is not obtained through the Identifier
Normalizer — it is `tableName` with dots replaced by underscores, so
for `tableName = "My.Table"` the handler exports `My_Table`, while
`idKey "My.Table" = "my_table"`. -/
theorem table_varName_not_normalized :
    ("export const My_Table = Table(\x7b\n") ∈ tableChunks ⟨"My.Table", "T", [], none⟩
    ∧ dotToUnderscore ("My.Table") = "My_Table"
    ∧ idKey ("My.Table") = "my_table"
    ∧ ("My_Table" : String) ≠ idKey ("My.Table") := by
  refine ⟨by decide, by decide, by decide, by decide⟩

theorem idKey_append (a b : String) : idKey (a ++ b) = idKey a ++ idKey b := by
  apply String.ext
  simp [idKey, String.data_append, List.map_append]

set_option maxRecDepth 16384 in
/-- Claim C4 (amended): every `$id` key in the emitted artifacts is
obtained by passing a human-meaningful seed (the request name or title,
or `<parentKey>_<childSeed>`) through the Identifier Normalizer — the
flow's `idKey name`, its trigger key `idKey (name ++ "_trigger")`, its
per-action keys `idKey (flowId ++ "_" ++ type)`; the workspace's
`idKey title`, `idKey ("ws_" ++ tableName)`,
`idKey (tableName ++ "_view")` and `idKey (tableName ++ "_list")`; the
business rule's `idKey name`; each ACL's `idKey (table ++ "_" ++ op)`;
the menu's `idKey title` and `idKey (menuId ++ "_" ++ moduleTitle)` —
and so are the flow and menu exported variable names and the role's
exported name when `exportName` is omitted (`idKey` of the name's last
dot-segment).  The exceptions: the table emitter's exported variable
name is `tableName` with dots replaced by underscores, not normalized,
and the role's exported name is the caller's `exportName` verbatim when
one is supplied. -/
theorem key_normalization :
    (∀ r : FlowRequest,
      containsStr (flowCode r) ("export const " ++ idKey r.name ++ " = Flow(\n") = true
      ∧ containsStr (flowCode r)
          ("        $id: Now.ID[\x27" ++ idKey r.name ++ "\x27],\n") = true
      ∧ containsStr (flowCode r)
          ("        \x7b $id: Now.ID[\x27" ++ idKey (r.name ++ "_trigger") ++
            "\x27] \x7d,\n") = true
      ∧ ∀ act ∈ r.actions,
          containsStr (flowCode r)
            ("            \x7b $id: Now.ID[\x27" ++
              idKey (idKey r.name ++ "_" ++ actionTypeStr act.type) ++
              "\x27] \x7d,\n") = true)
    ∧ (∀ r : WorkspaceRequest,
        containsStr (workspaceCode r)
          ("    $id: Now.ID[\x27" ++ idKey r.title ++ "\x27],\n") = true
        ∧ ∀ t ∈ r.tables,
            containsStr (workspaceCode r)
              ("    $id: Now.ID[\x27" ++ idKey ("ws_" ++ t.tableName) ++ "\x27],\n") = true
            ∧ containsStr (workspaceCode r)
              ("    $id: Now.ID[\x27" ++ idKey (t.tableName ++ "_view") ++ "\x27],\n") = true
            ∧ containsStr (workspaceCode r)
              ("    $id: Now.ID[\x27" ++ idKey (t.tableName ++ "_list") ++ "\x27],\n") = true)
    ∧ (∀ r : BusinessRuleRequest,
        containsStr (businessRuleCode r)
          ("    $id: Now.ID[\x27" ++ idKey r.name ++ "\x27],\n") = true)
    ∧ (∀ r : AclRequest, ∀ op ∈ r.operations,
        containsStr (aclCode r)
          ("    $id: Now.ID[\x27" ++ idKey (r.table ++ "_" ++ aclOpStr op) ++
            "\x27],\n") = true)
    ∧ (∀ r : AppMenuRequest,
        containsStr (menuCode r)
          ("export const " ++ idKey r.title ++ " = ApplicationMenu(\x7b\n") = true
        ∧ containsStr (menuCode r)
            ("    $id: Now.ID[\x27" ++ idKey r.title ++ "\x27],\n") = true
        ∧ ∀ m ∈ r.modules,
            containsStr (menuCode r)
              ("    $id: Now.ID[\x27" ++ idKey (idKey r.title ++ "_" ++ m.title) ++
                "\x27],\n") = true)
    ∧ (∀ name description : String,
        containsStr (roleCode ⟨name, description, none⟩)
          ("export const " ++ idKey (jsOr (splitDotLast name) name) ++
            " = Role(\x7b\n") = true)
    ∧ containsStr (roleCode ⟨"x_myorg.asset_manager", "Manages assets", none⟩)
        ("export const asset_manager = Role(\x7b\n") = true
    ∧ roleVarName ("x_myorg.admin") (some ("MyRole")) = "MyRole"
    ∧ (∀ r : TableRequest,
        containsStr (tableCode r)
          ("export const " ++ dotToUnderscore r.tableName ++ " = Table(\x7b\n") = true) := by
  refine ⟨?_, ?_, ?_, ?_, ?_, ?_, by decide, by decide, ?_⟩
  · intro r
    refine ⟨?_, ?_, ?_, ?_⟩
    · unfold flowCode
      apply containsStr_join_of_mem
      simp [flowChunks, flowHeaderChunks]
    · unfold flowCode
      apply containsStr_join_of_mem
      simp [flowChunks, flowHeaderChunks]
    · rw [idKey_append,
        show idKey ("_trigger") = "_trigger" from by decide,
        show ("        \x7b $id: Now.ID[\x27" ++ (idKey r.name ++ "_trigger") ++
            "\x27] \x7d,\n")
          = ("        \x7b $id: Now.ID[\x27" ++ idKey r.name ++
            "_trigger\x27] \x7d,\n") from by
          simp only [String.append_assoc]
          rw [show ("_trigger" : String) ++ "\x27] \x7d,\n" = "_trigger\x27] \x7d,\n"
            from by decide]]
      unfold flowCode
      apply containsStr_join_of_mem
      simp [flowChunks, flowHeaderChunks]
    · intro act hact
      unfold flowCode
      apply containsStr_join_of_mem
      refine List.mem_append.mpr (Or.inl (List.mem_append.mpr (Or.inr ?_)))
      refine List.mem_flatMap.mpr ⟨act, hact, ?_⟩
      obtain ⟨ty, cfg⟩ := act
      cases ty <;> simp [actionChunks, actionTypeStr]
  · intro r
    refine ⟨?_, ?_⟩
    · unfold workspaceCode
      apply containsStr_join_of_mem
      refine List.mem_append.mpr (Or.inl ?_)
      simp [wsMasterChunks]
    · intro t ht
      refine ⟨?_, ?_, ?_⟩ <;>
        · unfold workspaceCode
          apply containsStr_join_of_mem
          refine List.mem_append.mpr (Or.inr (List.mem_flatMap.mpr ⟨t, ht, ?_⟩))
          simp [wsTableChunks]
  · intro r
    unfold businessRuleCode
    apply containsStr_join_of_mem
    simp [businessRuleChunks]
  · intro r op hop
    unfold aclCode
    apply containsStr_join_of_mem
    refine List.mem_append.mpr (Or.inr (List.mem_flatMap.mpr ⟨op, hop, ?_⟩))
    simp [aclOpChunks]
  · intro r
    refine ⟨?_, ?_, ?_⟩
    · unfold menuCode
      apply containsStr_join_of_mem
      simp [menuChunks]
    · unfold menuCode
      apply containsStr_join_of_mem
      simp [menuChunks]
    · intro m hm
      unfold menuCode
      apply containsStr_join_of_mem
      refine List.mem_append.mpr (Or.inr (List.mem_flatMap.mpr ⟨m, hm, ?_⟩))
      simp [menuModuleChunks]
  · intro name description
    unfold roleCode
    apply containsStr_join_of_mem
    simp [roleChunks, roleVarName, jsOrOpt, jsOr]
  · intro r
    unfold tableCode
    apply containsStr_join_of_mem
    simp [tableChunks]

/-- Witness for C4's amended theorem at concrete inputs, exercising the
membership hypotheses (a flow action, a workspace table entry, an ACL
operation, a menu module). -/
theorem key_normalization_witness :
    containsStr (flowCode ⟨"My Flow", "d", .created, "x_t", none, [⟨.log, []⟩]⟩)
      ("            \x7b $id: Now.ID[\x27" ++
        idKey (idKey ("My Flow") ++ "_" ++ actionTypeStr FlowActionType.log) ++
        "\x27] \x7d,\n") = true
    ∧ containsStr (workspaceCode ⟨"WS", "ws", "d", [⟨"x_t", false, []⟩]⟩)
      ("    $id: Now.ID[\x27" ++ idKey ("ws_" ++ "x_t") ++ "\x27],\n") = true
    ∧ containsStr (aclCode ⟨"x_t", [.read], none, none⟩)
      ("    $id: Now.ID[\x27" ++ idKey ("x_t" ++ "_" ++ aclOpStr AclOp.read) ++
        "\x27],\n") = true
    ∧ containsStr (menuCode ⟨"Menu", "d", [⟨"Mod", "x_t", .LIST, 100⟩], none, none⟩)
      ("    $id: Now.ID[\x27" ++ idKey (idKey ("Menu") ++ "_" ++ "Mod") ++
        "\x27],\n") = true :=
  ⟨(key_normalization.1 _).2.2.2 ⟨.log, []⟩ (by decide),
   ((key_normalization.2.1 _).2 ⟨"x_t", false, []⟩ (by decide)).1,
   key_normalization.2.2.2.1 _ AclOp.read (by decide),
   (key_normalization.2.2.2.2.1 _).2.2 ⟨"Mod", "x_t", .LIST, 100⟩ (by decide)⟩

/-! ## Claim C7 — one action block per action, in order -/

/-- Claim C7: the flow document decomposes as header, then the action
blocks — one per input action, obtained by mapping the block emitter
over the input action list, hence exactly `k` blocks in input order —
then the footer; and every action block, whatever its type, contains
the `wfa.action(` invocation marker. -/
theorem flow_action_blocks :
    ∀ r : FlowRequest,
      flowCode r = String.join (flowHeaderChunks r)
          ++ String.join (r.actions.map (actionBlock (idKey r.name) r.table))
          ++ String.join flowFooterChunks
      ∧ (r.actions.map (actionBlock (idKey r.name) r.table)).length = r.actions.length
      ∧ (∀ act : ActionSpec,
          containsStr (actionBlock (idKey r.name) r.table act) ("wfa.action(\n") = true) := by
  intro r
  refine ⟨?_, List.length_map _ _, ?_⟩
  · unfold flowCode flowChunks
    rw [strJoin_append, strJoin_append, strJoin_flatMap]
    rfl
  · intro act
    obtain ⟨ty, cfg⟩ := act
    unfold actionBlock
    cases ty with
    | log =>
        refine containsStr_join_of_mem_contains _ ("        wfa.action(\n") _ ?_ (by decide)
        simp [actionChunks]
    | updateRecord =>
        refine containsStr_join_of_mem_contains _ ("        wfa.action(\n") _ ?_ (by decide)
        simp [actionChunks]
    | sendEmail =>
        refine containsStr_join_of_mem_contains _ ("        wfa.action(\n") _ ?_ (by decide)
        simp [actionChunks]
    | lookUpRecord =>
        refine containsStr_join_of_mem_contains _
          ("        const " ++ idKey (idKey r.name ++ "_" ++ "lookUpRecord") ++
            "_result = wfa.action(\n") _ ?_ ?_
        · simp [actionChunks, actionTypeStr]
        · exact containsStr_append_left _ _ _ (by decide)

/-! ## Claim C10 — workspace block structure -/

theorem wsListEntries_zip_aux :
    ∀ (cols : List String) (k : Nat),
      (List.enumFrom k cols).map (fun p => wsListEntryLine p.1 p.2)
        = List.zipWith
            (fun c i => "        \x7b element: \x27" ++ c ++ "\x27, position: " ++
              toString i ++ " \x7d")
            cols (List.range' k cols.length) := by
  intro cols
  induction cols with
  | nil => intro k; rfl
  | cons c rest ih =>
      intro k
      simp only [List.enumFrom_cons, List.map_cons, List.length_cons,
        List.range'_succ, List.zipWith_cons_cons]
      rw [ih (k + 1)]
      rfl

/-- Claim C10: the workspace document is one `sys_aw_master_config`
block followed, for each table entry in input order, by one block
triple (`sys_aw_table` record, `sys_ui_view` record, `List` block); the
`List` block's `listColumns` of size `n` are paired with positions
exactly `0..n-1` (`List.range n`, 0-based) in input order. -/
theorem workspace_blocks :
    ∀ r : WorkspaceRequest,
      workspaceCode r = String.join (wsMasterChunks r)
          ++ String.join (r.tables.map (wsTableBlock (idKey r.title)))
      ∧ (r.tables.map (wsTableBlock (idKey r.title))).length = r.tables.length
      ∧ containsStr (String.join (wsMasterChunks r))
          ("    table: \x27sys_aw_master_config\x27,\n") = true
      ∧ (∀ (wsId : String) (t : WsTable),
          containsStr (wsTableBlock wsId t) ("    table: \x27sys_aw_table\x27,\n") = true
          ∧ containsStr (wsTableBlock wsId t) ("    table: \x27sys_ui_view\x27,\n") = true
          ∧ containsStr (wsTableBlock wsId t) ("List(\x7b\n") = true)
      ∧ (∀ cols : List String,
          wsListEntries cols
            = List.zipWith
                (fun c i => "        \x7b element: \x27" ++ c ++ "\x27, position: " ++
                  toString i ++ " \x7d")
                cols (List.range cols.length)) := by
  intro r
  refine ⟨?_, List.length_map _ _, ?_, ?_, ?_⟩
  · unfold workspaceCode workspaceChunks
    rw [strJoin_append, strJoin_flatMap]
    rfl
  · apply containsStr_join_of_mem
    simp [wsMasterChunks]
  · intro wsId t
    refine ⟨?_, ?_, ?_⟩ <;>
      · unfold wsTableBlock
        apply containsStr_join_of_mem
        simp [wsTableChunks]
  · intro cols
    unfold wsListEntries List.enum
    rw [List.range_eq_range']
    exact wsListEntries_zip_aux cols 0

/-! ## Claim C6 — optional-field emission -/

theorem mem_ite_singleton {α : Type} (p : Prop) [Decidable p] (x s : α) :
    (s ∈ if p then [x] else []) ↔ p ∧ s = x := by
  split
  · next h => simp [h]
  · next h => simp [h]

theorem mem_maxLength_part (ml : Option Int) (s : String) :
    (s ∈ match ml with
         | some n => if n = 0 then [] else ["maxLength: " ++ toString n]
         | none => ([] : List String))
      ↔ ∃ n : Int, ml = some n ∧ n ≠ 0 ∧ s = "maxLength: " ++ toString n := by
  cases ml with
  | none => simp
  | some n => by_cases h : n = 0 <;> simp [h]

theorem mem_default_part (dv : Option String) (s : String) :
    (s ∈ match dv with
         | some v => ["default: \x27" ++ v ++ "\x27"]
         | none => ([] : List String))
      ↔ ∃ v, dv = some v ∧ s = "default: \x27" ++ v ++ "\x27" := by
  cases dv <;> simp

theorem mem_ref_part (ty : ColType) (rt : Option String) (s : String) :
    (s ∈ match ty, rt with
         | ColType.reference, some r =>
             if r = "" then [] else ["referenceTable: \x27" ++ r ++ "\x27"]
         | _, _ => ([] : List String))
      ↔ ∃ r, ty = .reference ∧ rt = some r ∧ r ≠ "" ∧
          s = "referenceTable: \x27" ++ r ++ "\x27" := by
  cases rt with
  | none => cases ty <;> simp
  | some r => cases ty <;> by_cases h : r = "" <;> simp [h]

theorem mem_choices_part (indent : String) (ty : ColType)
    (ch : Option (List (String × String))) (s : String) :
    (s ∈ match ty, ch with
         | ColType.choice, some cs => [choicesProp indent cs]
         | _, _ => ([] : List String))
      ↔ ∃ cs, ty = .choice ∧ ch = some cs ∧ s = choicesProp indent cs := by
  cases ch with
  | none => cases ty <;> simp
  | some cs => cases ty <;> simp

theorem mem_genColumnProps (col : ColumnSpec) (indent : String) (s : String) :
    s ∈ genColumnProps col indent ↔
      s = "label: \x27" ++ col.label ++ "\x27"
      ∨ (col.mandatory = some true ∧ s = "mandatory: true")
      ∨ (∃ n : Int, col.maxLength = some n ∧ n ≠ 0 ∧ s = "maxLength: " ++ toString n)
      ∨ (∃ v, col.defaultValue = some v ∧ s = "default: \x27" ++ v ++ "\x27")
      ∨ (∃ rt, col.type = .reference ∧ col.referenceTable = some rt ∧ rt ≠ "" ∧
          s = "referenceTable: \x27" ++ rt ++ "\x27")
      ∨ (∃ cs, col.type = .choice ∧ col.choices = some cs ∧
          s = choicesProp indent cs) := by
  unfold genColumnProps
  simp only [List.mem_append, List.mem_singleton]
  rw [mem_ite_singleton, mem_maxLength_part, mem_default_part, mem_ref_part,
    mem_choices_part]
  simp only [or_assoc]

theorem mem_tableChunks (r : TableRequest) (s : String) :
    s ∈ tableChunks r ↔
      s = "import \x7b " ++ importList r.columns ++ " \x7d from \x27@servicenow/sdk/core\x27\n\n"
      ∨ s = "export const " ++ dotToUnderscore r.tableName ++ " = Table(\x7b\n"
      ∨ s = "    name: \x27" ++ r.tableName ++ "\x27,\n"
      ∨ s = "    label: \x27" ++ r.label ++ "\x27,\n"
      ∨ s = "    schema: \x7b\n" ++
          String.intercalate (",\n") (r.columns.map (fun c => generateColumnCode c "")) ++
          ",\n    \x7d,\n"
      ∨ (truthyStr r.displayColumn = true ∧
          s = "    display: \x27" ++ r.displayColumn.getD "" ++ "\x27,\n")
      ∨ s = "\x7d)\n" := by
  unfold tableChunks
  simp only [List.mem_append, List.mem_cons, List.mem_singleton, List.not_mem_nil,
    or_false]
  rw [mem_ite_singleton]
  simp only [or_assoc]

theorem mem_flowHeaderChunks (r : FlowRequest) (s : String) :
    s ∈ flowHeaderChunks r ↔
      s = "import \x7b action, Flow, wfa, trigger \x7d from \x27@servicenow/sdk/automation\x27\n\n"
      ∨ s = "export const " ++ idKey r.name ++ " = Flow(\n"
      ∨ s = "    \x7b\n"
      ∨ s = "        $id: Now.ID[\x27" ++ idKey r.name ++ "\x27],\n"
      ∨ s = "        name: \x27" ++ r.name ++ "\x27,\n"
      ∨ s = "        description: \x27" ++ r.description ++ "\x27,\n"
      ∨ s = "    \x7d,\n"
      ∨ s = "    wfa.trigger(\n"
      ∨ s = "        trigger.record." ++ triggerStr r.triggerType ++ ",\n"
      ∨ s = "        \x7b $id: Now.ID[\x27" ++ idKey r.name ++ "_trigger\x27] \x7d,\n"
      ∨ s = "        \x7b\n"
      ∨ s = "            table: \x27" ++ r.table ++ "\x27,\n"
      ∨ (truthyStr r.condition = true ∧
          s = "            condition: \x27" ++ r.condition.getD "" ++ "\x27,\n")
      ∨ s = "            run_flow_in: \x27background\x27,\n"
      ∨ s = "            run_on_extended: \x27false\x27,\n"
      ∨ s = "            run_when_setting: \x27both\x27,\n"
      ∨ s = "            run_when_user_setting: \x27any\x27,\n"
      ∨ s = "            run_when_user_list: [],\n"
      ∨ s = "        \x7d\n"
      ∨ s = "    ),\n"
      ∨ s = "    (params) => \x7b\n" := by
  unfold flowHeaderChunks
  simp only [List.mem_append, List.mem_cons, List.mem_singleton, List.not_mem_nil,
    or_false]
  rw [mem_ite_singleton]
  simp only [or_assoc]

theorem actionChunks_strAt12 (fid tbl : String) (act : ActionSpec) (s : String)
    (h : s ∈ actionChunks fid tbl act) : strAt s 12 ≠ some ('c') := by
  obtain ⟨ty, cfg⟩ := act
  cases ty with
  | log =>
      simp only [actionChunks, List.mem_cons, List.not_mem_nil, or_false] at h
      rcases h with h|h|h|h|h|h|h|h <;> subst h <;>
        first
          | decide
          | (try simp only [String.append_assoc]
             rw [strAt_append _ _ _ (by decide)]
             decide)
  | updateRecord =>
      simp only [actionChunks, List.mem_append, List.mem_cons, List.not_mem_nil,
        or_false, List.mem_map] at h
      rcases h with ((h|h|h|h|h|h|h|h) | ⟨kv, _, h⟩) | (h|h|h) <;> subst h <;>
        first
          | decide
          | (try simp only [String.append_assoc]
             rw [strAt_append _ _ _ (by decide)]
             decide)
  | sendEmail =>
      simp only [actionChunks, List.mem_cons, List.not_mem_nil, or_false] at h
      rcases h with h|h|h|h|h|h|h|h|h|h|h|h|h <;> subst h <;>
        first
          | decide
          | (try simp only [String.append_assoc]
             rw [strAt_append _ _ _ (by decide)]
             decide)
  | lookUpRecord =>
      simp only [actionChunks, List.mem_cons, List.not_mem_nil, or_false] at h
      rcases h with h|h|h|h|h|h|h|h|h|h <;> subst h <;>
        first
          | decide
          | (try simp only [String.append_assoc]
             rw [strAt_append _ _ _ (by decide)]
             decide)

theorem cond_chunk_strAt12 (c : String) :
    strAt ("            condition: \x27" ++ c ++ "\x27,\n") 12 = some ('c') := by
  try simp only [String.append_assoc]
  rw [strAt_append _ _ _ (by decide)]
  decide

theorem cond_notin_actionChunks (fid tbl c : String) (act : ActionSpec) :
    ("            condition: \x27" ++ c ++ "\x27,\n") ∉ actionChunks fid tbl act := by
  intro h
  exact actionChunks_strAt12 fid tbl act _ h (cond_chunk_strAt12 c)

theorem flowHeaderChunks_strAt12 (r : FlowRequest) (s : String)
    (h : s ∈ flowHeaderChunks r) :
    strAt s 12 ≠ some ('c')
    ∨ (truthyStr r.condition = true ∧
        s = "            condition: \x27" ++ r.condition.getD "" ++ "\x27,\n") := by
  rw [mem_flowHeaderChunks] at h
  rcases h with h|h|h|h|h|h|h|h|h|h|h|h|h|h|h|h|h|h|h|h|h
  case inr.inr.inr.inr.inr.inr.inr.inr.inr.inr.inr.inr.inl => exact Or.inr h
  all_goals
    refine Or.inl ?_
    subst h
    first
      | decide
      | (try simp only [String.append_assoc]
         rw [strAt_append _ _ _ (by decide)]
         decide)

theorem flow_condition_mem (r : FlowRequest) (c : String) :
    ("            condition: \x27" ++ c ++ "\x27,\n") ∈ flowChunks r ↔
      (r.condition = some c ∧ c ≠ "") := by
  unfold flowChunks
  constructor
  · intro h
    rcases List.mem_append.mp h with h | h
    · rcases List.mem_append.mp h with h | h
      · rcases flowHeaderChunks_strAt12 r _ h with hne | ⟨htr, heq⟩
        · exact absurd (cond_chunk_strAt12 c) hne
        · obtain ⟨x, hx, hxne⟩ := (truthyStr_iff _).mp htr
          rw [hx] at heq
          simp only [Option.getD_some] at heq
          have := append_inj_mid ("            condition: \x27") ("\x27,\n")
            (by simpa [String.append_assoc] using heq)
          exact ⟨this ▸ hx, this ▸ hxne⟩
      · obtain ⟨act, _, hmem⟩ := List.mem_flatMap.mp h
        exact absurd hmem (cond_notin_actionChunks _ _ _ _)
    · unfold flowFooterChunks at h
      rcases List.mem_cons.mp h with h | h
      · exact absurd h (ne_of_strAt 12 _ _ (by rw [cond_chunk_strAt12 c]; decide))
      · rw [List.mem_singleton] at h
        exact absurd h (ne_of_strAt 12 _ _ (by rw [cond_chunk_strAt12 c]; decide))
  · intro ⟨hc, hne⟩
    refine List.mem_append.mpr (Or.inl (List.mem_append.mpr (Or.inl ?_)))
    rw [mem_flowHeaderChunks]
    refine Or.inr (Or.inr (Or.inr (Or.inr (Or.inr (Or.inr (Or.inr (Or.inr (Or.inr
      (Or.inr (Or.inr (Or.inr (Or.inl ⟨?_, ?_⟩))))))))))))
    · simp [truthyStr, hc, hne]
    · rw [hc]
      simp

theorem table_display_mem (r : TableRequest) (d : String) :
    ("    display: \x27" ++ d ++ "\x27,\n") ∈ tableChunks r ↔
      (r.displayColumn = some d ∧ d ≠ "") := by
  rw [mem_tableChunks]
  constructor
  · intro h
    rcases h with h|h|h|h|h|⟨htr, heq⟩|h
    · exact absurd h (ne_of_strAt 4 _ _ (by
        try simp only [String.append_assoc]
        try rw [strAt_append _ _ _ (by decide)]
        try rw [strAt_append _ _ _ (by decide)]
        decide))
    · exact absurd h (ne_of_strAt 4 _ _ (by
        try simp only [String.append_assoc]
        try rw [strAt_append _ _ _ (by decide)]
        try rw [strAt_append _ _ _ (by decide)]
        decide))
    · exact absurd h (ne_of_strAt 4 _ _ (by
        try simp only [String.append_assoc]
        try rw [strAt_append _ _ _ (by decide)]
        try rw [strAt_append _ _ _ (by decide)]
        decide))
    · exact absurd h (ne_of_strAt 4 _ _ (by
        try simp only [String.append_assoc]
        try rw [strAt_append _ _ _ (by decide)]
        try rw [strAt_append _ _ _ (by decide)]
        decide))
    · exact absurd h (ne_of_strAt 4 _ _ (by
        try simp only [String.append_assoc]
        try rw [strAt_append _ _ _ (by decide)]
        try rw [strAt_append _ _ _ (by decide)]
        decide))
    · obtain ⟨x, hx, hxne⟩ := (truthyStr_iff _).mp htr
      rw [hx] at heq
      simp only [Option.getD_some] at heq
      have := append_inj_mid ("    display: \x27") ("\x27,\n") heq
      exact ⟨this ▸ hx, this ▸ hxne⟩
    · exact absurd h (ne_of_strAt 4 _ _ (by
        try simp only [String.append_assoc]
        try rw [strAt_append _ _ _ (by decide)]
        decide))
  · intro ⟨hd, hne⟩
    refine Or.inr (Or.inr (Or.inr (Or.inr (Or.inr (Or.inl ⟨?_, ?_⟩)))))
    · simp [truthyStr, hd, hne]
    · rw [hd]
      simp

theorem mandatory_mem (col : ColumnSpec) (indent : String) :
    ("mandatory: true") ∈ genColumnProps col indent ↔ col.mandatory = some true := by
  rw [mem_genColumnProps]
  constructor
  · intro h
    rcases h with h|⟨hm, _⟩|⟨n, hn, hn0, h⟩|⟨v, hv, h⟩|⟨rt, hty, hrt, hrtne, h⟩|⟨cs, hty, hcs, h⟩
    · exact absurd h (ne_of_strAt 0 _ _ (by
        try simp only [String.append_assoc]
        try rw [strAt_append _ _ _ (by decide)]
        decide))
    · exact hm
    · exact absurd h (ne_of_strAt 2 _ _ (by
        try simp only [String.append_assoc]
        try rw [strAt_append _ _ _ (by decide)]
        decide))
    · exact absurd h (ne_of_strAt 0 _ _ (by
        try simp only [String.append_assoc]
        try rw [strAt_append _ _ _ (by decide)]
        decide))
    · exact absurd h (ne_of_strAt 0 _ _ (by
        try simp only [String.append_assoc]
        try rw [strAt_append _ _ _ (by decide)]
        decide))
    · exact absurd h (ne_of_strAt 0 _ _ (by
        unfold choicesProp
        try simp only [String.append_assoc]
        try rw [strAt_append _ _ _ (by decide)]
        decide))
  · intro hm
    exact Or.inr (Or.inl ⟨hm, rfl⟩)

theorem maxLength_mem_of (col : ColumnSpec) (indent : String) (n : Int)
    (hn : col.maxLength = some n) (h0 : n ≠ 0) :
    ("maxLength: " ++ toString n) ∈ genColumnProps col indent := by
  rw [mem_genColumnProps]
  exact Or.inr (Or.inr (Or.inl ⟨n, hn, h0, rfl⟩))

theorem maxLength_notmem (col : ColumnSpec) (indent : String)
    (hml : col.maxLength = none ∨ col.maxLength = some 0) (m : Int) :
    ("maxLength: " ++ toString m) ∉ genColumnProps col indent := by
  rw [mem_genColumnProps]
  intro h
  rcases h with h|⟨hm, h⟩|⟨n, hn, hn0, h⟩|⟨v, hv, h⟩|⟨rt, hty, hrt, hrtne, h⟩|⟨cs, hty, hcs, h⟩
  · exact absurd h (ne_of_strAt 0 _ _ (by
      try simp only [String.append_assoc]
      try rw [strAt_append _ _ _ (by decide)]
      try rw [strAt_append _ _ _ (by decide)]
      decide))
  · exact absurd h (ne_of_strAt 2 _ _ (by
      try simp only [String.append_assoc]
      try rw [strAt_append _ _ _ (by decide)]
      decide))
  · rcases hml with hml | hml <;> rw [hml] at hn
    · exact Option.noConfusion hn
    · exact hn0 (Option.some.inj hn).symm
  · exact absurd h (ne_of_strAt 0 _ _ (by
      try simp only [String.append_assoc]
      try rw [strAt_append _ _ _ (by decide)]
      try rw [strAt_append _ _ _ (by decide)]
      decide))
  · exact absurd h (ne_of_strAt 0 _ _ (by
      try simp only [String.append_assoc]
      try rw [strAt_append _ _ _ (by decide)]
      try rw [strAt_append _ _ _ (by decide)]
      decide))
  · exact absurd h (ne_of_strAt 0 _ _ (by
      unfold choicesProp
      try simp only [String.append_assoc]
      try rw [strAt_append _ _ _ (by decide)]
      try rw [strAt_append _ _ _ (by decide)]
      decide))

theorem default_mem (col : ColumnSpec) (indent : String) (v : String) :
    ("default: \x27" ++ v ++ "\x27") ∈ genColumnProps col indent ↔
      col.defaultValue = some v := by
  rw [mem_genColumnProps]
  constructor
  · intro h
    rcases h with h|⟨hm, h⟩|⟨n, hn, hn0, h⟩|⟨w, hw, h⟩|⟨rt, hty, hrt, hrtne, h⟩|⟨cs, hty, hcs, h⟩
    · exact absurd h (ne_of_strAt 0 _ _ (by
        try simp only [String.append_assoc]
        try rw [strAt_append _ _ _ (by decide)]
        try rw [strAt_append _ _ _ (by decide)]
        decide))
    · exact absurd h (ne_of_strAt 0 _ _ (by
        try simp only [String.append_assoc]
        try rw [strAt_append _ _ _ (by decide)]
        decide))
    · exact absurd h (ne_of_strAt 0 _ _ (by
        try simp only [String.append_assoc]
        try rw [strAt_append _ _ _ (by decide)]
        try rw [strAt_append _ _ _ (by decide)]
        decide))
    · have := append_inj_mid ("default: \x27") ("\x27") h
      exact this ▸ hw
    · exact absurd h (ne_of_strAt 0 _ _ (by
        try simp only [String.append_assoc]
        try rw [strAt_append _ _ _ (by decide)]
        try rw [strAt_append _ _ _ (by decide)]
        decide))
    · exact absurd h (ne_of_strAt 0 _ _ (by
        unfold choicesProp
        try simp only [String.append_assoc]
        try rw [strAt_append _ _ _ (by decide)]
        try rw [strAt_append _ _ _ (by decide)]
        decide))
  · intro hv
    exact Or.inr (Or.inr (Or.inr (Or.inl ⟨v, hv, rfl⟩)))

/-- Claim C6 (counterexample to the claim as stated): an optional field
that is present but falsy is not emitted.  A column whose `mandatory`
field is present with value `false` emits only its label — the present
`mandatory` field leaves no trace — and likewise a present
`maxLength` of `0` emits nothing. -/
theorem optional_field_present_not_emitted :
    (⟨"a", .string, "A", some false, none, none, none, none⟩ : ColumnSpec).mandatory
        = some false
    ∧ genColumnProps ⟨"a", .string, "A", some false, none, none, none, none⟩ ("")
        = ["label: \x27A\x27"]
    ∧ containsStr
        (generateColumnCode ⟨"a", .string, "A", some false, none, none, none, none⟩ (""))
        ("mandatory") = false
    ∧ (⟨"b", .string, "B", none, some 0, none, none, none⟩ : ColumnSpec).maxLength
        = some 0
    ∧ genColumnProps ⟨"b", .string, "B", none, some 0, none, none, none⟩ ("")
        = ["label: \x27B\x27"] := by
  exact ⟨rfl, by decide, by decide, rfl, by decide⟩

/-- Claim C6 (amended): an optional field is emitted exactly when it is
present with a truthy value, and an absent optional field leaves no
corresponding prop or chunk: `mandatory: true` is among the column
props iff `mandatory` is present and `true`; the `maxLength` prop is
emitted when `maxLength` is present and nonzero and never when it is
absent or `0`; the `default` prop is among the props iff `defaultValue`
is present (even when empty); the table's `display` line is among its
chunks iff `displayColumn` is present and nonempty; the flow's
`condition` line is among its chunks iff `condition` is present and
nonempty. -/
theorem optional_fields_emission :
    (∀ (col : ColumnSpec) (indent : String),
      (("mandatory: true") ∈ genColumnProps col indent ↔ col.mandatory = some true))
    ∧ (∀ (col : ColumnSpec) (indent : String) (n : Int),
        col.maxLength = some n → n ≠ 0 →
          ("maxLength: " ++ toString n) ∈ genColumnProps col indent)
    ∧ (∀ (col : ColumnSpec) (indent : String),
        col.maxLength = none ∨ col.maxLength = some 0 →
          ∀ m : Int, ("maxLength: " ++ toString m) ∉ genColumnProps col indent)
    ∧ (∀ (col : ColumnSpec) (indent : String) (v : String),
        (("default: \x27" ++ v ++ "\x27") ∈ genColumnProps col indent ↔
          col.defaultValue = some v))
    ∧ (∀ (r : TableRequest) (d : String),
        (("    display: \x27" ++ d ++ "\x27,\n") ∈ tableChunks r ↔
          (r.displayColumn = some d ∧ d ≠ "")))
    ∧ (∀ (r : FlowRequest) (c : String),
        (("            condition: \x27" ++ c ++ "\x27,\n") ∈ flowChunks r ↔
          (r.condition = some c ∧ c ≠ ""))) :=
  ⟨mandatory_mem, maxLength_mem_of, maxLength_notmem, default_mem,
    table_display_mem, flow_condition_mem⟩

/-- Witness for C6's amended theorem at concrete inputs. -/
theorem optional_fields_emission_witness :
    ("mandatory: true") ∈
        genColumnProps ⟨"a", .string, "A", some true, some 40, none, none, none⟩ ("")
    ∧ ("maxLength: " ++ toString (40 : Int)) ∈
        genColumnProps ⟨"a", .string, "A", some true, some 40, none, none, none⟩ ("")
    ∧ ("maxLength: " ++ toString (9 : Int)) ∉
        genColumnProps ⟨"b", .string, "B", none, some 0, none, none, none⟩ ("")
    ∧ ("default: \x27" ++ "off" ++ "\x27") ∈
        genColumnProps ⟨"c", .string, "C", none, none, none, none, some "off"⟩ ("")
    ∧ ("    display: \x27" ++ "name" ++ "\x27,\n") ∈
        tableChunks ⟨"x_t", "T", [], some "name"⟩
    ∧ ("            condition: \x27" ++ "priority=1" ++ "\x27,\n") ∈
        flowChunks ⟨"My Flow", "d", .created, "x_t", some "priority=1", []⟩ :=
  ⟨(optional_fields_emission.1 _ _).mpr rfl,
   optional_fields_emission.2.1 _ _ 40 rfl (by decide),
   optional_fields_emission.2.2.1 _ _ (Or.inr rfl) 9,
   (optional_fields_emission.2.2.2.1 _ _ _).mpr rfl,
   (optional_fields_emission.2.2.2.2.1 _ _).mpr ⟨rfl, by decide⟩,
   (optional_fields_emission.2.2.2.2.2 _ _).mpr ⟨rfl, by decide⟩⟩
